import Mathlib

set_option maxHeartbeats 1000000

namespace RemageRuntimeTests

/-! Verification development for the remage runtime-test repository.

The in-repo source is `src/plotter.ipynb` (the notebook that merges the
discovered `runtime_estimates.json` artifacts and draws the per-project
event-rate comparison). Its functions `generate_output` and `draw_project`
are embedded below directly from the notebook cells. The benchmark engine
modules named by the README (`config.py`, `simulation.py`, `submission.py`)
are not part of the source tree, so the components the specification
attributes to them (Template Expander, Statistics Aggregator, Level
Executor, Local Orchestrator) are modelled from the specification text;
each such definition carries a doc comment starting `Modelled from the
spec:`. Numbers are modelled as rationals. -/

/-! ## Data read by `draw_project` (plotter.ipynb cell 10) -/

/-- Event-rate block of a per-level result artifact: the `event_rate` field
with numeric `val` and `std` entries, as read by `draw_project`. -/
structure EventRate where
  val : ℚ
  std : ℚ
deriving DecidableEq

/-- Raw-data block of a per-level result artifact: the `raw.runtimes` list of
wall-clock durations. -/
structure RawData where
  runtimes : List ℚ
deriving DecidableEq

/-- The `"data"` payload of one level entry as read by `draw_project`
(`data[lab]["data"]`): `event_rate`, `raw.runtimes`, and the `n_primaries`
recorded in the artifact's configuration snapshot. The snapshot field is
carried so that theorems can state what the plotting code does *not* read. -/
structure ResultData where
  event_rate : EventRate
  raw : RawData
  cfg_n_primaries : ℚ
deriving DecidableEq

instance : Inhabited ResultData := ⟨⟨⟨0, 0⟩, ⟨[]⟩, 0⟩⟩

/-- One nesting level of the output dictionary that `draw_project` receives:
an association list from labels (e.g. `"m1"`) to entries; an entry is
`some r` when the level dictionary has a `"data"` key with payload `r`, and
`none` when it has no `"data"` key. -/
abbrev LevelDict := List (String × Option ResultData)

/-- Python compares strings lexicographically by code point; on `String.data`
that is exactly the lexicographic order of the underlying character lists,
which is what `x_labels.sort()` uses. -/
def labelLe (a b : String) : Prop := a.data ≤ b.data

instance : DecidableRel labelLe :=
  fun a b => (inferInstance : Decidable (a.data ≤ b.data))

instance : IsTotal String labelLe := ⟨fun a b => le_total a.data b.data⟩

instance : IsTrans String labelLe := by
  refine ⟨fun a b c h1 h2 => ?_⟩
  exact le_trans h1 h2

instance : IsAntisymm String labelLe := by
  refine ⟨fun a b h1 h2 => ?_⟩
  have h := le_antisymm h1 h2
  cases a
  cases b
  simp_all

/-- `draw_project`, first block: collect the keys of `data` whose entry has a
`"data"` field, then `x_labels.sort()` — Python's ascending string sort. -/
def x_labels (data : LevelDict) : List String :=
  List.insertionSort labelLe ((data.filter fun kv => kv.2.isSome).map fun kv => kv.1)

/-- Dictionary access `data[project]["data"]` for a label that carries data:
association-list lookup, with a default value for absent keys (never reached
on the labels `draw_project` iterates, which all carry data). -/
def lookupLevel (data : LevelDict) (p : String) : ResultData :=
  match data.find? fun kv => kv.1 == p with
  | some (_, some r) => r
  | _ => default

/-- Module-level constant of the notebook (cell 3): `n_primaries = 2e6`. -/
def n_primaries : ℚ := 2000000

/-- `np.median`: sort ascending; an odd-length list yields the middle element,
an even-length list the average of the two middle elements. The empty case
(where NumPy yields nan) is mapped to 0 and never used by the claims. -/
def median (xs : List ℚ) : ℚ :=
  let s := List.insertionSort (· ≤ ·) xs
  if s.length = 0 then 0
  else if s.length % 2 = 1 then s.getD (s.length / 2) 0
  else (s.getD (s.length / 2 - 1) 0 + s.getD (s.length / 2) 0) / 2

/-- `y_rate = [data[project]["data"]["event_rate"]["val"] for project in x_labels]`. -/
def y_rate (data : LevelDict) : List ℚ :=
  (x_labels data).map fun p => (lookupLevel data p).event_rate.val

/-- `y_rate_unc = [data[project]["data"]["event_rate"]["std"]/10 for project in x_labels]`. -/
def y_rate_unc (data : LevelDict) : List ℚ :=
  (x_labels data).map fun p => (lookupLevel data p).event_rate.std / 10

/-- The median event rate of one entry:
`np.median(n_primaries/np.array(…["raw"]["runtimes"]))`, with the notebook's
module-level `n_primaries` constant. -/
def rate_median_entry (r : ResultData) : ℚ :=
  median (r.raw.runtimes.map fun t => n_primaries / t)

/-- `y_rate_median = [np.median(n_primaries/np.array(data[project]["data"]["raw"]["runtimes"])) for project in x_labels]`. -/
def y_rate_median (data : LevelDict) : List ℚ :=
  (x_labels data).map fun p => rate_median_entry (lookupLevel data p)

/-- `draw_project`, single-level branch (`if len(x_labels) == 1:`): append the
`"default"` comparison entry `tmp` to the label list and the three series.
Note the appended error bar is `tmp["data"]["event_rate"]["std"]` — taken
verbatim, without the `/10` applied to every discovered level. The result
bundles `(x_labels, y_rate, y_rate_unc, y_rate_median)` after the branch. -/
def series_with_default (data : LevelDict) (tmp : ResultData) :
    List String × List ℚ × List ℚ × List ℚ :=
  if (x_labels data).length = 1 then
    (x_labels data ++ ["default"],
     y_rate data ++ [tmp.event_rate.val],
     y_rate_unc data ++ [tmp.event_rate.std],
     y_rate_median data ++ [rate_median_entry tmp])
  else
    (x_labels data, y_rate data, y_rate_unc data, y_rate_median data)

/-! ## `generate_output` (plotter.ipynb cell 6) -/

/-- JSON-like dictionary tree as manipulated by `generate_output`: every node
is a dict from string keys to subtrees. A parsed result file is itself such a
tree, so stored file contents and created `{}` nodes live in the same type,
exactly as in Python. -/
inductive Entry where
  | obj : List (String × Entry) → Entry

/-- Python dict read: the value at a key, if present. -/
def getKey : List (String × Entry) → String → Option Entry
  | [], _ => none
  | (k, v) :: rest, key => if k == key then some v else getKey rest key

/-- Python dict write `d[k] = v`: replace in place when the key exists,
append otherwise (dict insertion order preserved). -/
def setKey : List (String × Entry) → String → Entry → List (String × Entry)
  | [], key, val => [(key, val)]
  | (k, v) :: rest, key, val =>
    if k == key then (k, val) :: rest else (k, v) :: setKey rest key val

/-- Notebook cell 2: `file_string = "runtime_estimates.json"`. -/
def file_string : String := "runtime_estimates.json"

/-- The inner loop of `generate_output` over the components of one file path
(`folders = file.split("/")` is modelled by handing each path to the core as
its `/`-separated component list): a `"gen"` component is skipped, a component
equal to `file_string` stores the parsed content under key `"data"` of the
current node, and any other component descends, creating an empty dict for an
absent key. -/
def insertFile (content : Entry) : List String → Entry → Entry
  | [], t => t
  | folder :: rest, Entry.obj kvs =>
    if folder == "gen" then insertFile content rest (Entry.obj kvs)
    else if folder == file_string then
      insertFile content rest (Entry.obj (setKey kvs "data" content))
    else
      Entry.obj (setKey kvs folder
        (insertFile content rest ((getKey kvs folder).getD (Entry.obj []))))

/-- `generate_output(files)`: fold the per-file loop over the file list,
starting from the empty dict. `load f` stands for `json.load(open(f))`; the
final `db.AttrsDict` wrapper is attribute-access sugar and not modelled. -/
def generate_output (load : List String → Entry) (files : List (List String)) : Entry :=
  files.foldl (fun out file => insertFile (load file) file out) (Entry.obj [])

/-- Read access `output[k₁][k₂]…`, used to state where `generate_output`
stored content. -/
def lookupPath : Entry → List String → Option Entry
  | e, [] => some e
  | Entry.obj kvs, k :: rest =>
    match getKey kvs k with
    | some c => lookupPath c rest
    | none => none

/-- The key path the claim associates with a result file: its directory
components with every component equal to `"gen"` omitted. -/
def redPath (file : List String) : List String :=
  file.dropLast.filter fun c => c ≠ "gen"

/-- Side condition of the amended claim: a result-file path is some directory
components followed by the result filename, where neither the filename itself
nor `"data"` occurs among the directory components (the counterexample below
shows the claim fails without the `"data"` proviso). -/
def ValidPath (file : List String) : Prop :=
  ∃ dirs, file = dirs ++ [file_string] ∧ file_string ∉ dirs ∧ "data" ∉ dirs

/-- The last file of the list whose reduced key path is `p` — the "later file
silently replaces the earlier one" part of the claim. -/
def lastWith (p : List String) : List (List String) → Option (List String)
  | [] => none
  | f :: rest =>
    match lastWith p rest with
    | some g => some g
    | none => if redPath f = p then some f else none

/-- Straight-line store: descend `p` (creating empty dicts) and set the
`"data"` key at its end — the net effect of one `insertFile` on a well-formed
path. -/
def setAt (content : Entry) : List String → Entry → Entry
  | [], Entry.obj kvs => Entry.obj (setKey kvs "data" content)
  | k :: rest, Entry.obj kvs =>
    Entry.obj (setKey kvs k
      (setAt content rest ((getKey kvs k).getD (Entry.obj []))))

/-- Concrete loader for witnesses: each path is mapped to a dict having the
path's components as keys, so distinct files have distinct parsed contents. -/
def loadTag : List String → Entry :=
  fun f => Entry.obj (f.map fun c => (c, Entry.obj []))

/-! ## Modelled engine components (spec §4.1–§4.5, §7) -/

/-- Modelled from the spec: the four execution modes of §3 — the engine
configuration module is not under `src/`. -/
inductive ExecutionMode where
  | multithreaded_fix
  | multithreaded_scaled
  | multiprocessed_fix
  | multiprocessed_scaled
deriving DecidableEq

/-- Modelled from the spec: "Compute effective primaries for this level from
execution_mode: `_fix` modes hold n_primaries constant across all m_steps;
`_scaled` modes multiply the configured baseline by m_step" (§4.4 step 2). -/
def effective_primaries (mode : ExecutionMode) (nPrim mStep : ℕ) : ℕ :=
  match mode with
  | .multithreaded_fix => nPrim
  | .multiprocessed_fix => nPrim
  | .multithreaded_scaled => nPrim * mStep
  | .multiprocessed_scaled => nPrim * mStep

/-- Modelled from the spec: arithmetic mean of a duration series (Statistics
Aggregator, §4.3); the aggregator module is not under `src/`. -/
def mean (xs : List ℚ) : ℚ := xs.sum / xs.length

/-- Modelled from the spec: population variance, divisor `n` — the square of
the population standard deviation of §4.3. -/
def popVar (xs : List ℚ) : ℚ :=
  (xs.map fun x => (x - mean xs) ^ 2).sum / xs.length

/-- `s` is the population standard deviation of a series whose population
variance is `v`: the nonnegative square root, kept as a predicate so the
model stays inside ℚ. -/
def IsStd (v s : ℚ) : Prop := 0 ≤ s ∧ s ^ 2 = v

/-- Modelled from the spec: derived event-rate series, one `n_primaries /
duration` value per trial (§4.2/§4.3). -/
def eventRates (nPrim : ℚ) (durations : List ℚ) : List ℚ :=
  durations.map fun d => nPrim / d

/-- Modelled from the spec error taxonomy (§7): `NoValidTrialsError`. -/
inductive AggError where
  | noValidTrials
deriving DecidableEq

/-- Modelled from the spec Level Result statistics (§3/§4.3): mean and
population variance of the durations, plus the derived rate series with its
mean and population variance. -/
structure LevelStats where
  mean : ℚ
  var : ℚ
  rates : List ℚ
  rateMean : ℚ
  rateVar : ℚ
deriving DecidableEq

/-- Modelled from the spec: `aggregate(durations, n_primaries)` (§4.3) —
"Zero valid trials is an error (§7), never silently reported as zero
statistics". -/
def aggregate (nPrim : ℚ) (ds : List ℚ) : Except AggError LevelStats :=
  if ds.isEmpty then .error .noValidTrials
  else
    .ok ⟨mean ds, popVar ds, eventRates nPrim ds,
      mean (eventRates nPrim ds), popVar (eventRates nPrim ds)⟩

/-- Modelled from the spec: the outcome of one trial (§4.2, §5) — a
successful run with its wall-clock duration, a timeout (subprocess forcibly
terminated, failed trial), or a non-zero-exit failure with its duration. -/
inductive TrialOutcome where
  | success (duration : ℚ)
  | timeout
  | failed (duration : ℚ)
deriving DecidableEq

/-- True exactly on a timed-out trial. -/
def isTimeout (t : TrialOutcome) : Bool :=
  match t with
  | .timeout => true
  | _ => false

/-- Modelled from the spec: the durations entering the statistics — §4.4
step 6 aggregates the successful durations, and a timeout is "excluded from
statistics" (§5, §7). -/
def validDurations (ts : List TrialOutcome) : List ℚ :=
  ts.filterMap fun t =>
    match t with
    | .success d => some d
    | _ => none

/-- Number of trials of a level that did not succeed — the count behind §7's
degraded-success flag on the level result. -/
def failedCount (ts : List TrialOutcome) : ℕ :=
  (ts.filter fun t =>
    match t with
    | .success _ => false
    | _ => true).length

/-- Modelled from the spec Level Result (§3): the per-level artifact with its
m_step, statistics, and failed-trial count. -/
structure LevelArtifact where
  m_step : ℕ
  stats : LevelStats
  n_failed : ℕ
deriving DecidableEq

/-- Modelled from the spec: the Level Executor's aggregation step (§4.4
steps 5–6, §7) — aggregate the valid durations; on `NoValidTrialsError` no
level artifact is produced. -/
def execute_level (nPrim : ℚ) (mStep : ℕ) (ts : List TrialOutcome) :
    Except AggError LevelArtifact :=
  (aggregate nPrim (validDurations ts)).map fun st => ⟨mStep, st, failedCount ts⟩

/-- Modelled from the spec: the Local Orchestrator (§4.5, §7) — every
configured m_step runs through the Level Executor; "one level's fatal error
never aborts sibling levels", and only successful levels contribute
artifacts. -/
def orchestrate (nPrim : ℚ) (trialsOf : ℕ → List TrialOutcome) (steps : List ℕ) :
    List LevelArtifact :=
  steps.filterMap fun s => (execute_level nPrim s (trialsOf s)).toOption

/-- Concrete trial assignment for the `NoValidTrialsError` witness: level 2
has only timed-out trials, every other level one successful trial. -/
def trialsOf₀ : ℕ → List TrialOutcome :=
  fun s => if s = 2 then [.timeout, .timeout] else [.success 10]

/-! ## Modelled Template Expander (spec §4.1) -/

/-- Modelled from the spec Template Expander (§4.1); the module is not under
`src/`. A template is a sequence of chunks — literal text or a named
placeholder. Binding values introducing placeholder syntax ("recursive
expansion") are explicitly undefined behaviour in the spec, so values are
opaque literals here. -/
inductive Chunk where
  | lit (s : String)
  | ph (name : String)
deriving DecidableEq

/-- A placeholder-to-value mapping, in insertion order. -/
abbrev Bindings := List (String × String)

/-- First binding of a placeholder name, if any. -/
def lookupB (b : Bindings) (k : String) : Option String :=
  (b.find? fun kv => kv.1 == k).map fun kv => kv.2

/-- Modelled from the spec: substitute one chunk — a bound placeholder
becomes its value, an unresolved placeholder "is left verbatim (not an
error)" (§4.1). -/
def expandChunk (b : Bindings) : Chunk → Chunk
  | .lit s => .lit s
  | .ph n =>
    match lookupB b n with
    | some v => .lit v
    | none => .ph n

/-- Modelled from the spec: `expand(template_text, bindings)` (§4.1). -/
def expand (t : List Chunk) (b : Bindings) : List Chunk :=
  t.map (expandChunk b)

/-- Concrete template for the expansion witness. -/
def tmpl₀ : List Chunk :=
  [Chunk.lit "/run/beamOn ", Chunk.ph "N_PRIMARIES",
   Chunk.ph "OUTPUT_DIR", Chunk.ph "UNBOUND"]

/-- Concrete first binding set for the expansion witness. -/
def binds₁ : Bindings := [("N_PRIMARIES", "1000")]

/-- Concrete second binding set for the expansion witness. -/
def binds₂ : Bindings := [("OUTPUT_DIR", "/var/tmp")]

/-- Concrete level dictionary with three discovered levels, keyed m1, m2, m16. -/
def d₀ : LevelDict :=
  [("m1", some default), ("m2", some default), ("m16", some default)]

/-- The same three levels discovered in the reverse filesystem order. -/
def d₀r : LevelDict :=
  [("m16", some default), ("m2", some default), ("m1", some default)]

/-- Concrete level artifact for the error-bar witness (`std = 7`). -/
def r₀ : ResultData := ⟨⟨3, 7⟩, ⟨[2]⟩, 5⟩

/-- Concrete `"default"` comparison artifact for the error-bar witness
(`std = 9`). -/
def tmp₀ : ResultData := ⟨⟨4, 9⟩, ⟨[3]⟩, 6⟩

/-- Concrete trial list for the timeout witness: three trials, the middle one
timed out. -/
def ts₀ : List TrialOutcome := [.success 10, .timeout, .success 20]

/-! ## Helper lemmas -/

lemma getKey_setKey_self (l : List (String × Entry)) (k : String) (v : Entry) :
    getKey (setKey l k v) k = some v := by
  induction l with
  | nil => simp [setKey, getKey]
  | cons kv rest ih =>
    obtain ⟨k', v'⟩ := kv
    by_cases h : k' = k
    · simp [setKey, getKey, h]
    · simp [setKey, getKey, h, ih]

lemma getKey_setKey_ne (l : List (String × Entry)) (k k' : String) (v : Entry)
    (h : k' ≠ k) : getKey (setKey l k v) k' = getKey l k' := by
  induction l with
  | nil => simp [setKey, getKey, Ne.symm h]
  | cons kv rest ih =>
    obtain ⟨a, w⟩ := kv
    by_cases ha : a = k
    · subst ha
      simp [setKey, getKey, Ne.symm h]
    · simp [setKey, getKey, ha, ih]

lemma lookup_setAt_self (c : Entry) (p : List String) (t : Entry) :
    lookupPath (setAt c p t) (p ++ ["data"]) = some c := by
  induction p generalizing t with
  | nil =>
    obtain ⟨kvs⟩ := t
    simp [setAt, lookupPath, getKey_setKey_self]
  | cons k p ih =>
    obtain ⟨kvs⟩ := t
    simp [setAt, lookupPath, getKey_setKey_self, ih]

lemma lookup_setAt_frame (c : Entry) (q : List String) :
    ∀ (p : List String) (t : Entry), p ≠ q → "data" ∉ p → "data" ∉ q →
      lookupPath (setAt c q t) (p ++ ["data"]) = lookupPath t (p ++ ["data"]) := by
  induction q with
  | nil =>
    intro p t hne hp _
    obtain ⟨kvs⟩ := t
    cases p with
    | nil => exact absurd rfl hne
    | cons a p' =>
      have ha : a ≠ "data" := fun h => hp (List.mem_cons.mpr (Or.inl h.symm))
      simp only [setAt, List.cons_append, lookupPath]
      rw [getKey_setKey_ne _ _ _ _ ha]
  | cons b q' ih =>
    intro p t hne hp hq
    obtain ⟨kvs⟩ := t
    have hb : b ≠ "data" := fun h => hq (List.mem_cons.mpr (Or.inl h.symm))
    cases p with
    | nil =>
      simp only [setAt, List.nil_append, lookupPath]
      rw [getKey_setKey_ne _ _ _ _ (Ne.symm hb)]
    | cons a p' =>
      by_cases hab : a = b
      · subst hab
        have hp' : "data" ∉ p' := fun h => hp (List.mem_cons_of_mem _ h)
        have hq' : "data" ∉ q' := fun h => hq (List.mem_cons_of_mem _ h)
        have hne' : p' ≠ q' := fun h => hne (by rw [h])
        cases hg : getKey kvs a with
        | some e =>
          simp only [setAt, List.cons_append, lookupPath, hg, Option.getD_some]
          rw [getKey_setKey_self]
          exact ih p' e hne' hp' hq'
        | none =>
          simp only [setAt, List.cons_append, lookupPath, hg, Option.getD_none]
          rw [getKey_setKey_self]
          show lookupPath (setAt c q' (Entry.obj [])) (p' ++ ["data"]) = none
          rw [ih p' (Entry.obj []) hne' hp' hq']
          cases p' <;> simp [lookupPath, getKey]
      · simp only [setAt, List.cons_append, lookupPath]
        rw [getKey_setKey_ne _ _ _ _ hab]

lemma insertFile_valid (c : Entry) :
    ∀ (dirs : List String), file_string ∉ dirs → ∀ t,
      insertFile c (dirs ++ [file_string]) t =
        setAt c (dirs.filter fun d => d ≠ "gen") t := by
  intro dirs
  induction dirs with
  | nil =>
    intro _ t
    obtain ⟨kvs⟩ := t
    simp [insertFile, setAt, file_string]
  | cons d dirs ih =>
    intro hfs t
    obtain ⟨kvs⟩ := t
    have hdfs : d ≠ file_string := fun h => hfs (List.mem_cons.mpr (Or.inl h.symm))
    have hfs' : file_string ∉ dirs := fun h => hfs (List.mem_cons_of_mem _ h)
    by_cases hgen : d = "gen"
    · subst hgen
      simp [insertFile, List.filter_cons, ih hfs']
    · simp [insertFile, setAt, List.filter_cons, hgen, hdfs, ih hfs']

lemma fold_lookup (load : List String → Entry) :
    ∀ (files : List (List String)), (∀ f ∈ files, ValidPath f) →
      ∀ (p : List String), "data" ∉ p → ∀ (t : Entry),
        lookupPath (files.foldl (fun out file => insertFile (load file) file out) t)
            (p ++ ["data"]) =
          (lastWith p files).elim (lookupPath t (p ++ ["data"]))
            (fun g => some (load g)) := by
  intro files
  induction files with
  | nil => intro _ p _ t; simp [lastWith]
  | cons f rest ih =>
    intro hv p hp t
    obtain ⟨dirs, hsplit, hfs, hdata⟩ := hv f (List.mem_cons_self f rest)
    have hred : redPath f = dirs.filter fun d => d ≠ "gen" := by
      rw [hsplit]
      simp [redPath]
    have hIns : ∀ u, insertFile (load f) f u = setAt (load f) (redPath f) u := by
      intro u
      rw [hred, hsplit]
      exact insertFile_valid _ dirs hfs u
    have hdatared : "data" ∉ redPath f := by
      rw [hred]
      intro hmem
      exact hdata (List.mem_of_mem_filter hmem)
    rw [List.foldl_cons, ih (fun g hg => hv g (List.mem_cons_of_mem f hg)) p hp]
    cases hl : lastWith p rest with
    | some g => simp [lastWith, hl]
    | none =>
      simp only [lastWith, hl]
      by_cases hpe : redPath f = p
      · rw [if_pos hpe]
        simp only [Option.elim]
        rw [hIns t, hpe]
        exact lookup_setAt_self (load f) p t
      · rw [if_neg hpe]
        simp only [Option.elim]
        rw [hIns t]
        exact lookup_setAt_frame (load f) (redPath f) p t
          (fun h => hpe h.symm) hp hdatared

lemma lastWith_isSome_of_mem :
    ∀ (files : List (List String)) (f : List String), f ∈ files →
      lastWith (redPath f) files ≠ none := by
  intro files
  induction files with
  | nil => intro f hf; simp at hf
  | cons g rest ih =>
    intro f hf h
    cases hl : lastWith (redPath f) rest with
    | some x => simp [lastWith, hl] at h
    | none =>
      rcases List.mem_cons.mp hf with rfl | hfr
      · simp [lastWith, hl] at h
      · exact ih f hfr hl

lemma lookupB_append (b1 b2 : Bindings) (k : String) :
    lookupB (b1 ++ b2) k = (lookupB b1 k).or (lookupB b2 k) := by
  unfold lookupB
  rw [List.find?_append]
  cases h : b1.find? fun kv => kv.1 == k <;> simp [h, Option.or]

lemma aggregate_ok_of_ne_nil (nP : ℚ) (ds : List ℚ) (h : ds ≠ []) :
    ∃ st, aggregate nP ds = Except.ok st := by
  refine ⟨⟨mean ds, popVar ds, eventRates nP ds, mean (eventRates nP ds),
    popVar (eventRates nP ds)⟩, ?_⟩
  simp [aggregate, h]

lemma except_toOption_ok {ε α : Type} {e : Except ε α} {a : α}
    (h : e.toOption = some a) : e = Except.ok a := by
  cases e <;> simp [Except.toOption] at h ⊢
  exact h

lemma execute_level_ok_fields (nP : ℚ) (mStep : ℕ) (ts : List TrialOutcome)
    (a : LevelArtifact) (h : execute_level nP mStep ts = Except.ok a) :
    a.m_step = mStep ∧ a.n_failed = failedCount ts
    ∧ aggregate nP (validDurations ts) = Except.ok a.stats := by
  unfold execute_level at h
  cases hA : aggregate nP (validDurations ts) with
  | error e =>
    rw [hA] at h
    simp [Except.map] at h
  | ok st =>
    rw [hA] at h
    simp [Except.map] at h
    subst h
    exact ⟨rfl, rfl, rfl⟩

lemma valid_and_failed_counts :
    ∀ (ts : List TrialOutcome),
      (∀ t ∈ ts, isTimeout t = true ∨ ∃ d, t = TrialOutcome.success d) →
      (validDurations ts).length + (ts.filter isTimeout).length = ts.length
      ∧ failedCount ts = (ts.filter isTimeout).length := by
  intro ts
  induction ts with
  | nil => intro _; simp [validDurations, failedCount]
  | cons t rest ih =>
    intro hrest
    obtain ⟨ih1, ih2⟩ := ih fun u hu => hrest u (List.mem_cons_of_mem _ hu)
    rcases hrest t (List.mem_cons_self t rest) with hto | ⟨d, rfl⟩
    · cases t with
      | timeout =>
        simp [validDurations, failedCount, isTimeout, List.filter_cons] at ih1 ih2 ⊢
        omega
      | success d => simp [isTimeout] at hto
      | failed d => simp [isTimeout] at hto
    · simp [validDurations, failedCount, isTimeout, List.filter_cons] at ih1 ih2 ⊢
      omega

/-! ## Claim theorems -/

/-- C1, counterexample: with levels m1, m2, m16 discovered, `draw_project`
orders them `["m1", "m16", "m2"]` — Python's string sort is lexicographic —
and not `["m1", "m2", "m16"]`, the ascending numeric m_step order the claim
demands. -/
theorem x_labels_numeric_order_counterexample :
    x_labels d₀ = ["m1", "m16", "m2"]
    ∧ (["m1", "m16", "m2"] : List String) ≠ ["m1", "m2", "m16"] :=
  ⟨by decide, by decide⟩

/-- C1, amended: the level labels plotted by `draw_project` are independent of
the order in which the per-level entries were discovered (any permutation of
the input dictionary yields the same list), are sorted ascending in the
lexicographic string order, and are exactly the labels carrying data — but
the order is lexicographic on the label text, not ascending numeric m_step. -/
theorem x_labels_lex_sorted_discovery_invariant (d d' : LevelDict)
    (h : d.Perm d') :
    x_labels d = x_labels d'
    ∧ (x_labels d).Sorted labelLe
    ∧ (x_labels d).Perm ((d.filter fun kv => kv.2.isSome).map fun kv => kv.1) := by
  refine ⟨?_, List.sorted_insertionSort labelLe _, List.perm_insertionSort labelLe _⟩
  refine List.eq_of_perm_of_sorted ?_ (List.sorted_insertionSort labelLe _)
    (List.sorted_insertionSort labelLe _)
  exact ((List.perm_insertionSort labelLe _).trans
    ((h.filter _).map _)).trans (List.perm_insertionSort labelLe _).symm

/-- Witness for C1's amended theorem at a concrete input: the three levels of
`d₀` discovered in reverse order produce the same (sorted) label list. -/
theorem x_labels_lex_sorted_discovery_invariant_witness :
    d₀r.Perm d₀
    ∧ (x_labels d₀r = x_labels d₀
       ∧ (x_labels d₀r).Sorted labelLe
       ∧ (x_labels d₀r).Perm ((d₀r.filter fun kv => kv.2.isSome).map fun kv => kv.1)) :=
  ⟨by decide, x_labels_lex_sorted_discovery_invariant d₀r d₀ (by decide)⟩

/-- C2: for every m_step `s` and positive baseline `n`, the `_scaled`
execution modes compute `n * s` effective primaries and the `_fix` modes
leave `n` unchanged. -/
theorem effective_primaries_mode_spec (s n : ℕ) (hn : 0 < n) :
    effective_primaries ExecutionMode.multithreaded_scaled n s = n * s
    ∧ effective_primaries ExecutionMode.multiprocessed_scaled n s = n * s
    ∧ effective_primaries ExecutionMode.multithreaded_fix n s = n
    ∧ effective_primaries ExecutionMode.multiprocessed_fix n s = n :=
  ⟨rfl, rfl, rfl, rfl⟩

/-- Witness for C2 at `n = 100`, `s = 16`. -/
theorem effective_primaries_mode_spec_witness :
    0 < 100
    ∧ (effective_primaries ExecutionMode.multithreaded_scaled 100 16 = 100 * 16
       ∧ effective_primaries ExecutionMode.multiprocessed_scaled 100 16 = 100 * 16
       ∧ effective_primaries ExecutionMode.multithreaded_fix 100 16 = 100
       ∧ effective_primaries ExecutionMode.multiprocessed_fix 100 16 = 100) :=
  ⟨by decide, effective_primaries_mode_spec 16 100 (by decide)⟩

/-- C3: the Statistics Aggregator on durations `[10, 20]` with
`n_primaries = 100` yields mean 15, population variance 25 (std 5, divisor
n), event rates `[10, 5]` with rate mean 15/2; and every single-trial
sequence has population variance 0 — std 0 — for both series. -/
theorem aggregate_example_stats :
    aggregate 100 [10, 20] = Except.ok ⟨15, 25, [10, 5], 15/2, 25/4⟩
    ∧ IsStd 25 5
    ∧ mean [10, 20] = 15
    ∧ eventRates 100 [10, 20] = [10, 5]
    ∧ mean (eventRates 100 [10, 20]) = 15/2
    ∧ ∀ x nP : ℚ, aggregate nP [x] = Except.ok ⟨x, 0, [nP/x], nP/x, 0⟩
        ∧ IsStd 0 0 := by
  refine ⟨?_, ⟨by norm_num, by norm_num⟩, ?_, ?_, ?_, ?_⟩
  · norm_num [aggregate, mean, popVar, eventRates]
  · norm_num [mean]
  · norm_num [eventRates]
  · norm_num [mean, eventRates]
  · intro x nP
    exact ⟨by norm_num [aggregate, mean, popVar, eventRates],
      le_refl 0, by norm_num⟩

/-- C4: a level whose trials produced zero valid durations makes the
aggregation step fail with `NoValidTrialsError`, contributes no per-level
artifact, and the orchestrator still produces an artifact for every sibling
m_step that has valid durations. -/
theorem no_valid_trials_error_continues (nP : ℚ)
    (trialsOf : ℕ → List TrialOutcome) (steps : List ℕ) (s : ℕ)
    (hs : s ∈ steps) (hall : validDurations (trialsOf s) = []) :
    execute_level nP s (trialsOf s) = Except.error AggError.noValidTrials
    ∧ (∀ a ∈ orchestrate nP trialsOf steps, a.m_step ≠ s)
    ∧ ∀ s2 ∈ steps, validDurations (trialsOf s2) ≠ [] →
        ∃ a ∈ orchestrate nP trialsOf steps, a.m_step = s2 := by
  have hexec : execute_level nP s (trialsOf s) = Except.error AggError.noValidTrials := by
    simp [execute_level, aggregate, hall, Except.map]
  refine ⟨hexec, ?_, ?_⟩
  · intro a ha hms
    obtain ⟨s', hs', hsome⟩ := List.mem_filterMap.mp ha
    have hok : execute_level nP s' (trialsOf s') = Except.ok a :=
      except_toOption_ok hsome
    obtain ⟨hm, _, _⟩ := execute_level_ok_fields nP s' (trialsOf s') a hok
    have hss : s' = s := (hm.symm.trans hms)
    rw [hss, hexec] at hok
    exact Except.noConfusion hok
  · intro s2 hs2 hne
    obtain ⟨st, hst⟩ := aggregate_ok_of_ne_nil nP _ hne
    refine ⟨⟨s2, st, failedCount (trialsOf s2)⟩, ?_, rfl⟩
    refine List.mem_filterMap.mpr ⟨s2, hs2, ?_⟩
    simp [execute_level, hst, Except.map, Except.toOption]

/-- Witness for C4: level 2 of `trialsOf₀` has only timed-out trials; the
orchestrator over steps `[1, 2, 3]` skips it and keeps the siblings. -/
theorem no_valid_trials_error_continues_witness :
    (2 ∈ ([1, 2, 3] : List ℕ) ∧ validDurations (trialsOf₀ 2) = [])
    ∧ (execute_level 100 2 (trialsOf₀ 2) = Except.error AggError.noValidTrials
       ∧ (∀ a ∈ orchestrate 100 trialsOf₀ [1, 2, 3], a.m_step ≠ 2)
       ∧ ∀ s2 ∈ ([1, 2, 3] : List ℕ), validDurations (trialsOf₀ s2) ≠ [] →
           ∃ a ∈ orchestrate 100 trialsOf₀ [1, 2, 3], a.m_step = s2) :=
  ⟨⟨by decide, rfl⟩,
    no_valid_trials_error_continues 100 trialsOf₀ [1, 2, 3] 2 (by decide) rfl⟩

/-- C5: in a level of 3 trials of which exactly one timed out (and the rest
succeeded), the statistics are aggregated over exactly the 2 remaining
durations, and the produced level artifact records one failed trial. -/
theorem timeout_trial_excluded (nP : ℚ) (s : ℕ) (ts : List TrialOutcome)
    (hlen : ts.length = 3)
    (hone : (ts.filter isTimeout).length = 1)
    (hrest : ∀ t ∈ ts, isTimeout t = true ∨ ∃ d, t = TrialOutcome.success d) :
    (validDurations ts).length = 2
    ∧ failedCount ts = 1
    ∧ ∃ a, execute_level nP s ts = Except.ok a ∧ a.n_failed = 1
        ∧ aggregate nP (validDurations ts) = Except.ok a.stats := by
  obtain ⟨hsum, hfail⟩ := valid_and_failed_counts ts hrest
  have h2 : (validDurations ts).length = 2 := by omega
  have hf1 : failedCount ts = 1 := by omega
  refine ⟨h2, hf1, ?_⟩
  have hne : validDurations ts ≠ [] := by
    intro h0
    rw [h0] at h2
    simp at h2
  obtain ⟨st, hst⟩ := aggregate_ok_of_ne_nil nP _ hne
  refine ⟨⟨s, st, failedCount ts⟩, ?_, hf1, by rw [hst]⟩
  simp [execute_level, hst, Except.map]

/-- Witness for C5 at the concrete trial list `ts₀` (successes of 10 s and
20 s around one timeout), `n_primaries = 100`, m_step 4. -/
theorem timeout_trial_excluded_witness :
    (ts₀.length = 3 ∧ (ts₀.filter isTimeout).length = 1)
    ∧ ((validDurations ts₀).length = 2
       ∧ failedCount ts₀ = 1
       ∧ ∃ a, execute_level 100 4 ts₀ = Except.ok a ∧ a.n_failed = 1
           ∧ aggregate 100 (validDurations ts₀) = Except.ok a.stats) := by
  refine ⟨⟨rfl, rfl⟩, timeout_trial_excluded 100 4 ts₀ rfl rfl ?_⟩
  intro t ht
  simp only [ts₀, List.mem_cons, List.not_mem_nil, or_false] at ht
  rcases ht with rfl | rfl | rfl
  · exact Or.inr ⟨10, rfl⟩
  · exact Or.inl rfl
  · exact Or.inr ⟨20, rfl⟩

/-- C7: expanding with two binding sets whose key sets are disjoint, one
after the other, equals expanding once with the union (concatenation) of the
bindings; a placeholder bound by neither set is left verbatim rather than
raising an error. -/
theorem expand_disjoint_compose (t : List Chunk) (b1 b2 : Bindings)
    (hdisj : ∀ k ∈ b1.map Prod.fst, k ∉ b2.map Prod.fst) :
    expand (expand t b1) b2 = expand t (b1 ++ b2)
    ∧ ∀ n, lookupB (b1 ++ b2) n = none →
        expand [Chunk.ph n] (b1 ++ b2) = [Chunk.ph n] := by
  constructor
  · have hc : ∀ c, expandChunk b2 (expandChunk b1 c) = expandChunk (b1 ++ b2) c := by
      intro c
      cases c with
      | lit s => rfl
      | ph n =>
        cases h1 : lookupB b1 n with
        | some v => simp [expandChunk, h1, lookupB_append, Option.or]
        | none =>
          simp only [expandChunk, h1, lookupB_append, Option.or_eq_orElse,
            Option.none_orElse]
          cases h2 : lookupB b2 n <;> simp [expandChunk, h2]
    unfold expand
    rw [List.map_map]
    exact congrArg (fun f => List.map f t) (funext hc)
  · intro n hn
    simp [expand, expandChunk, hn]

/-- Witness for C7 at the concrete template `tmpl₀` and the disjoint binding
sets `binds₁`, `binds₂`. -/
theorem expand_disjoint_compose_witness :
    (∀ k ∈ binds₁.map Prod.fst, k ∉ binds₂.map Prod.fst)
    ∧ (expand (expand tmpl₀ binds₁) binds₂ = expand tmpl₀ (binds₁ ++ binds₂)
       ∧ ∀ n, lookupB (binds₁ ++ binds₂) n = none →
           expand [Chunk.ph n] (binds₁ ++ binds₂) = [Chunk.ph n]) :=
  ⟨by decide, expand_disjoint_compose tmpl₀ binds₁ binds₂ (by decide)⟩

/-- C8: in `draw_project`'s single-level branch the plotted uncertainty
series is `[std/10, std]` — the discovered level's stored `event_rate.std`
divided by 10, followed by the appended default entry's stored
`event_rate.std` taken undivided — so the two branches scale the same stored
field differently (they differ whenever the std is nonzero). -/
theorem unc_series_scaling_mismatch (p : String) (r tmp : ResultData) :
    (series_with_default [(p, some r)] tmp).2.2.1 =
      [r.event_rate.std / 10, tmp.event_rate.std]
    ∧ (tmp.event_rate.std ≠ 0 → tmp.event_rate.std ≠ tmp.event_rate.std / 10) := by
  constructor
  · have hx : x_labels [(p, some r)] = [p] := by
      simp [x_labels, List.insertionSort, List.orderedInsert]
    have hl : lookupLevel [(p, some r)] p = r := by
      simp [lookupLevel, List.find?]
    simp [series_with_default, hx, y_rate_unc, hl]
  · intro h heq
    apply h
    linarith

/-- Witness for C8 at `r₀` (std 7) and `tmp₀` (std 9): the uncertainty series
is `[7/10, 9]` and the undivided 9 differs from 9/10. -/
theorem unc_series_scaling_mismatch_witness :
    (series_with_default [("m1", some r₀)] tmp₀).2.2.1 = [(7 : ℚ)/10, 9]
    ∧ ((9 : ℚ) ≠ 0 ∧ (9 : ℚ) ≠ (9 : ℚ)/10) := by
  have h := unc_series_scaling_mismatch "m1" r₀ tmp₀
  exact ⟨h.1, by norm_num, h.2 (by norm_num [tmp₀])⟩

/-- C9: the median event-rate overlay of `draw_project` divides the notebook's
module-level constant `n_primaries = 2e6` by each raw runtime; it does not
depend on the `n_primaries` recorded in the level's configuration snapshot
(changing the snapshot leaves the median unchanged). -/
theorem rate_median_uses_module_constant (d : LevelDict) (r : ResultData) (q : ℚ) :
    n_primaries = 2000000
    ∧ rate_median_entry { r with cfg_n_primaries := q } = rate_median_entry r
    ∧ y_rate_median d =
        (x_labels d).map fun p =>
          median (((lookupLevel d p).raw.runtimes).map fun t => (2000000 : ℚ) / t) := by
  refine ⟨rfl, rfl, ?_⟩
  simp [y_rate_median, rate_median_entry, n_primaries]

/-- C10, counterexample: for the file list
`["a/data/runtime_estimates.json", "a/runtime_estimates.json"]` the first
path is the only (hence last) file with reduced key path `["a", "data"]`,
yet after `generate_output` nothing is stored at `["a", "data", "data"]` —
the second file's store of the key `"data"` at node `a` clobbered the first
file's subtree, so the claim's storage guarantee fails as stated. -/
theorem generate_output_data_dir_counterexample :
    lastWith (redPath ["a", "data", file_string])
        [["a", "data", file_string], ["a", file_string]] =
      some ["a", "data", file_string]
    ∧ lookupPath
        (generate_output (fun _ => Entry.obj [])
          [["a", "data", file_string], ["a", file_string]])
        (redPath ["a", "data", file_string] ++ ["data"]) = none :=
  ⟨rfl, rfl⟩

/-- C10, amended: provided no directory component of any path equals
`"data"` or the result filename itself, `generate_output` stores each file's
parsed JSON under the key `"data"` at the nested key path formed by its
directory components with every `"gen"` omitted, and when several files
reduce to the same key path the content found there is the **last** such
file's — the later file silently replaces the earlier one. -/
theorem generate_output_last_writer (load : List String → Entry)
    (files : List (List String)) (hv : ∀ f ∈ files, ValidPath f)
    (f : List String) (hf : f ∈ files) :
    lookupPath (generate_output load files) (redPath f ++ ["data"]) =
      (lastWith (redPath f) files).map load := by
  obtain ⟨dirs, hsplit, hfs, hdata⟩ := hv f hf
  have hdp : "data" ∉ redPath f := by
    rw [hsplit]
    simp only [redPath, List.dropLast_concat]
    intro hmem
    exact hdata (List.mem_of_mem_filter hmem)
  have h := fold_lookup load files hv (redPath f) hdp (Entry.obj [])
  unfold generate_output
  rw [h]
  cases hl : lastWith (redPath f) files with
  | none => exact absurd hl (lastWith_isSome_of_mem files f hf)
  | some g => simp

/-- Witness for C10's amended theorem: two concrete files whose reduced key
paths coincide (`p/m1/…` and `p/gen/m1/…`, the `gen` component being
dropped); the stored content is the later file's. -/
theorem generate_output_last_writer_witness :
    (∀ f ∈ ([["p", "m1", file_string], ["p", "gen", "m1", file_string]] :
        List (List String)), ValidPath f)
    ∧ lookupPath
        (generate_output loadTag
          [["p", "m1", file_string], ["p", "gen", "m1", file_string]])
        (redPath ["p", "m1", file_string] ++ ["data"]) =
      (lastWith (redPath ["p", "m1", file_string])
        [["p", "m1", file_string], ["p", "gen", "m1", file_string]]).map loadTag := by
  have hv : ∀ f ∈ ([["p", "m1", file_string], ["p", "gen", "m1", file_string]] :
      List (List String)), ValidPath f := by
    intro f hf
    rcases List.mem_cons.mp hf with rfl | hf2
    · exact ⟨["p", "m1"], rfl, by decide, by decide⟩
    · rcases List.mem_cons.mp hf2 with rfl | hf3
      · exact ⟨["p", "gen", "m1"], rfl, by decide, by decide⟩
      · simp at hf3
  exact ⟨hv, generate_output_last_writer loadTag _ hv
    ["p", "m1", file_string] (by decide)⟩

end RemageRuntimeTests
